import Mathlib

/-!
Verification of the datasette request-routing layer and error translator,
as implemented in src/datasette/app.py.

Embedding conventions:
* Python byte strings and text paths are modelled as lists of characters.
* Python dicts are modelled as association lists (insertion order preserved,
  keys unique in any state the modelled operations construct), matching the
  semantics of dict and collections.OrderedDict used by the source.
* Fallible Python code is modelled with Except String, the error message
  naming the Python exception class.
* Mutable Python objects that the source aliases and copies (the metadata
  tree used by Datasette.metadata and Datasette.plugin_config) are modelled
  with an explicit heap of dictionaries addressed by natural numbers, so that
  copy-versus-alias behaviour is faithfully represented.
-/

instance {ε α : Type} [DecidableEq ε] [DecidableEq α] : DecidableEq (Except ε α) := fun a b =>
  match a, b with
  | .error e, .error f =>
    if h : e = f then isTrue (by rw [h]) else isFalse (by intro hh; cases hh; exact h rfl)
  | .ok x, .ok y =>
    if h : x = y then isTrue (by rw [h]) else isFalse (by intro hh; cases hh; exact h rfl)
  | .error _, .ok _ => isFalse (by intro hh; cases hh)
  | .ok _, .error _ => isFalse (by intro hh; cases hh)

/-- Python s.startswith(pat): the first argument starts with the second. -/
def pyStartsWith : List Char → List Char → Bool
  | _, [] => true
  | [], _ :: _ => false
  | c :: cs, p :: ps => c = p && pyStartsWith cs ps

/-- Python s.endswith(suf). -/
def pyEndsWith (cs suf : List Char) : Bool :=
  pyStartsWith cs.reverse suf.reverse

/-- Python s.rstrip(c): removes every trailing occurrence of c. -/
def pyRstrip (cs : List Char) (c : Char) : List Char :=
  (cs.reverse.dropWhile (fun x => x = c)).reverse

/-- Python s.split(sep)[0]: the segment before the first separator. -/
def pySplitFirst (cs : List Char) (sep : Char) : List Char :=
  cs.takeWhile (fun c => c ≠ sep)

/-- Python s.split(sep), with a single-character separator. -/
def pySplit (sep : Char) : List Char → List (List Char)
  | [] => [[]]
  | c :: rest =>
    let r := pySplit sep rest
    if c = sep then [] :: r
    else
      match r with
      | [] => [[c]]
      | h :: t => (c :: h) :: t

/-- Python d.get(k) on a dict modelled as an association list. -/
def pyDictGet {α : Type} : List (String × α) → String → Option α
  | [], _ => none
  | p :: rest, k => if p.1 = k then some p.2 else pyDictGet rest k

/-- Python d[k] = v: replaces the value in place if the key is present
(keeping its position, as dict and OrderedDict both do), otherwise appends. -/
def pyDictSet {α : Type} : List (String × α) → String → α → List (String × α)
  | [], k, v => [(k, v)]
  | p :: rest, k, v => if p.1 = k then (k, v) :: rest else p :: pyDictSet rest k v

/-- Python d.update(e): sets every binding of e in d, in order. -/
def pyDictUpdate {α : Type} (d e : List (String × α)) : List (String × α) :=
  e.foldl (fun acc p => pyDictSet acc p.1 p.2) d

/-- Python d.pop(k) with no default: returns the value and the remaining
dict, or raises KeyError when the key is absent. -/
def pyDictPop {α : Type} : List (String × α) → String → Except String (α × List (String × α))
  | [], _ => .error "KeyError"
  | p :: rest, k =>
    if p.1 = k then .ok (p.2, rest)
    else (pyDictPop rest k).map (fun q => (q.1, p :: q.2))

/-- Payload values placed in the error dictionary built by
DatasetteRouter.handle_500 (app.py lines 847-878): booleans, integers,
plain strings, markupsafe.Markup strings, and Python None. -/
inductive PValue where
  | bool (b : Bool)
  | int (n : Nat)
  | str (s : String)
  | markup (s : String)
  | null
deriving DecidableEq

/-- The failures distinguished by DatasetteRouter.handle_500: NotFound
(utils/asgi), DatasetteError (views/base, carrying status, error_dict,
message, messagge_is_html and title), and any other exception, represented
by its string form str(exception). -/
inductive Ex where
  | notFound (message : String)
  | datasetteError (status : Nat) (error_dict : List (String × PValue))
      (message : String) (messagge_is_html : Bool) (title : Option String)
  | other (strForm : String)
deriving DecidableEq

/-- Body shape chosen by handle_500: either the JSON serialization of the
info payload (asgi_send_json), or an HTML page rendered from the first
existing template of the candidate list with the info payload as template
context (select_template followed by render_async and asgi_send_html).
For the HTML shape we record which template select_template picks;
select_template raises TemplateNotFound when the recorded pick is none. -/
inductive ErrorBody where
  | jsonPayload (payload : List (String × PValue))
  | htmlPage (selected : Option String) (context : List (String × PValue))
deriving DecidableEq

/-- Whether an error body is the machine-readable JSON shape. -/
def ErrorBody.isJson : ErrorBody → Bool
  | .jsonPayload _ => true
  | .htmlPage _ _ => false

/-- The response produced by DatasetteRouter.handle_500. -/
structure ErrorResponse where
  status : Nat
  headers : List (String × String)
  info : List (String × PValue)
  body : ErrorBody
deriving DecidableEq

/-- Candidate template list of handle_500 (app.py lines 865-867):
templates = ["500.html"]; if status != 500 the status-specific template is
prepended. -/
def status_templates (status : Nat) : List String :=
  if status ≠ 500 then [toString status ++ ".html", "500.html"] else ["500.html"]

/-- Python None titles become JSON null in the payload. -/
def optTitle : Option String → PValue
  | some s => .str s
  | none => .null

/-- DatasetteRouter.handle_500 (app.py lines 847-878).  Inputs: the failure,
the request path scope["path"], the cors flag of the application, and the
template-existence oracle backing jinja_env.select_template. -/
def handle_500 (ex : Ex) (path : List Char) (cors : Bool)
    (texists : String → Bool) : ErrorResponse :=
  let triple : Nat × List (String × PValue) × PValue × Option String :=
    match ex with
    | .notFound message => (404, [], .str message, none)
    | .datasetteError status error_dict message messagge_is_html title =>
      (status, error_dict, if messagge_is_html then .markup message else .str message, title)
    | .other strForm => (500, [], .str strForm, none)
  match triple with
  | (status, info0, message, title) =>
    let templates := status_templates status
    let info := pyDictUpdate info0
      [("ok", .bool false), ("error", message), ("status", .int status), ("title", optTitle title)]
    let headers : List (String × String) :=
      if cors then [("Access-Control-Allow-Origin", "*")] else []
    if pyEndsWith (pySplitFirst path '?') (".json".toList) then
      { status := status, headers := headers, info := info, body := .jsonPayload info }
    else
      { status := status, headers := headers, info := info,
        body := .htmlPage (List.find? texists templates) info }

/-- An HTTP response as sent by the asgi_send_* helpers. -/
structure HttpResponse where
  status : Nat
  headers : List (String × List Char)
  body : List Char
deriving DecidableEq

/-- Modelled from the spec: asgi_send_redirect (utils/asgi is not under
src/): the not-found chain "issues a redirect", and the end-to-end property
requires "a 302-class redirect ... with an empty body", carrying the target
in the Location header. -/
def asgi_send_redirect (location : List Char) : HttpResponse :=
  { status := 302, headers := [("Location", location)], body := [] }

/-- posixpath os.path.join on already-split components. -/
def osPathJoin (parts : List (List Char)) : List Char :=
  match parts with
  | [] => []
  | p :: ps =>
    ps.foldl (fun acc b =>
      if pyStartsWith b ['/'] then b
      else if acc = [] ∨ pyEndsWith acc ['/'] then acc ++ b
      else acc ++ '/' :: b) p

/-- The pages/ template path probed by handle_404:
os.path.join("pages", *scope["path"].split("/")) + ".html". -/
def templatePathFor (path : List Char) : List Char :=
  osPathJoin ("pages".toList :: pySplit '/' path) ++ ".html".toList

/-- Terminal states of the not-found chain run by DatasetteRouter.handle_404:
a redirect was sent, a pages/ template was rendered, or the failure was
delegated to handle_500. -/
inductive NotFoundOutcome where
  | redirected (resp : HttpResponse)
  | rendered (templatePath : List Char)
  | errored (resp : ErrorResponse)
deriving DecidableEq

/-- DatasetteRouter.handle_404 (app.py lines 788-845).  rawPath models
scope["raw_path"] (which defaults to scope["path"] utf-8 encoded; both are
modelled by the one character list), queryString models
scope["query_string"], pageExists is the existence oracle for pages/
templates, and exceptionArg the optional exception argument, replaced by
NotFound("404") when absent (Python: exception or NotFound("404")).
Rendering of a found pages/ template (custom_header, custom_status,
custom_redirect) is performed by the out-of-scope templating collaborator
and is recorded only by its template path. -/
def handle_404 (rawPath queryString : List Char) (pageExists : List Char → Bool)
    (cors : Bool) (texists : String → Bool) (exceptionArg : Option Ex) : NotFoundOutcome :=
  if pyEndsWith rawPath ['/'] then
    let path := pyRstrip rawPath '/'
    let path := if queryString ≠ [] then path ++ '?' :: queryString else path
    .redirected (asgi_send_redirect path)
  else
    let tPath := templatePathFor rawPath
    if pageExists tPath then
      .rendered tPath
    else
      .errored (handle_500 (exceptionArg.getD (.notFound "404")) rawPath cors texists)

/-- DatasetteRouter.route_path (app.py lines 781-786): the path that is
handed on to AsgiRouter.route_path after base_url stripping.  base_url is
the configured base_url config value (default "/"). -/
def route_path_stripped (base_url path : List Char) : List Char :=
  if base_url ≠ ['/'] ∧ pyStartsWith path base_url then
    '/' :: path.drop base_url.length
  else path

/-- A value stored in the metadata tree: Python None, a scalar (modelled by
its string form), or a reference to a dictionary held in the heap. -/
inductive HValue where
  | null
  | leaf (s : String)
  | ref (addr : Nat)
deriving DecidableEq

/-- The heap of Python dictionaries making up the metadata tree; a
dictionary is addressed by its index in the list. -/
structure Heap where
  dicts : List (List (String × HValue))
deriving DecidableEq

/-- The dictionary stored at an address (well-formed code never follows a
dangling address; such an address reads as the empty dictionary). -/
def dictAt (h : Heap) (a : Nat) : List (String × HValue) :=
  h.dicts.getD a []

/-- Allocate a fresh dictionary: Python dict(d) produces a new object whose
address is the next free one. -/
def heapAlloc (h : Heap) (d : List (String × HValue)) : Heap × Nat :=
  ({ dicts := h.dicts ++ [d] }, h.dicts.length)

/-- Write one binding into the dictionary at an address:
Python d[k] = v on the object stored there. -/
def heapWrite (h : Heap) (a : Nat) (k : String) (v : HValue) : Heap :=
  { dicts := h.dicts.set a (pyDictSet (dictAt h a) k v) }

def assertMsg : String :=
  "AssertionError: Cannot call metadata() with table= specified but not database="

def typeErrMsg : String := "TypeError: metadata value is not a mapping"

/-- Python (x or \x7b\x7d) for a dict lookup result that the code goes on to
use as a mapping: a missing key, a stored None and an empty dict (all falsy)
give the empty dict; a reference gives the referenced dict.  A truthy
non-dict value is outside the mapping-shaped metadata this development
covers (Python would raise AttributeError on the next .get, or apply
substring membership at the search step); the embedding signals typeErrMsg
there, and every theorem below stays within the mapping-shaped case. -/
def contentsOr (h : Heap) (v : Option HValue) : Except String (List (String × HValue)) :=
  match v with
  | none => .ok []
  | some .null => .ok []
  | some (.leaf s) => if s = "" then .ok [] else .error typeErrMsg
  | some (.ref a) => .ok (dictAt h a)

/-- The loop of Datasette.metadata (app.py lines 319-323): return the value
of the first search-list item that contains the key, else None. -/
def searchFirst : List (List (String × HValue)) → String → Option HValue
  | [], _ => none
  | item :: rest, k =>
    match pyDictGet item k with
    | some v => some v
    | none => searchFirst rest k

/-- Result of Datasette.metadata: a single value when a key was given, the
merged dictionary otherwise. -/
inductive MetaResult where
  | value (v : Option HValue)
  | merged (d : List (String × HValue))
deriving DecidableEq

/-- The database-level part of the search list of Datasette.metadata
(app.py lines 308-309): search_list.append(databases.get(database) or
followed by the empty dict) when a database was given. -/
def dbLevelList (h : Heap) (databases : List (String × HValue)) (database : Option String) :
    Except String (List (List (String × HValue))) :=
  match database with
  | none => .ok []
  | some d =>
    match contentsOr h (pyDictGet databases d) with
    | .error e => .error e
    | .ok dl => .ok [dl]

/-- The table-level part of the search list of Datasette.metadata (app.py
lines 310-314): the table entry of the tables dict of the database entry,
recomputing databases.get(database) exactly as the source expression does,
inserted at the front of the search list when a table was given. -/
def tblLevelList (h : Heap) (databases : List (String × HValue))
    (database table : Option String) :
    Except String (List (List (String × HValue))) :=
  match table with
  | none => .ok []
  | some t =>
    match contentsOr h (pyDictGet databases (database.getD "")) with
    | .error e => .error e
    | .ok dl2 =>
      match contentsOr h (pyDictGet dl2 "tables") with
      | .error e => .error e
      | .ok tbls =>
        match contentsOr h (pyDictGet tbls t) with
        | .error e => .error e
        | .ok tl => .ok [tl]

/-- Datasette.metadata (app.py lines 298-329).  root is the address of
self._metadata in the heap.  The search list is built exactly as in the
source: the database level is appended first, the table level is inserted
in front, and self._metadata is appended last; without fallback only the
first entry is kept. -/
def metadata (h : Heap) (root : Nat) (key database table : Option String)
    (fallback : Bool) : Except String MetaResult :=
  if database = none ∧ table ≠ none then .error assertMsg
  else
    let meta := dictAt h root
    match contentsOr h (pyDictGet meta "databases") with
    | .error e => .error e
    | .ok databases =>
      match dbLevelList h databases database with
      | .error e => .error e
      | .ok dbList =>
        match tblLevelList h databases database table with
        | .error e => .error e
        | .ok tblList =>
          let searchList := tblList ++ dbList ++ [meta]
          let searchList2 := if fallback then searchList else searchList.take 1
          match key with
          | some k => .ok (.value (searchFirst searchList2 k))
          | none => .ok (.merged (searchList2.foldl pyDictUpdate []))

/-- list(value.values())[0] on a single-binding dict. -/
def firstValue (d : List (String × HValue)) : HValue :=
  (d.headD ("", .null)).2

/-- The string carried by a scalar value; a non-string argument to
os.environ.get or open would raise TypeError in Python and does not occur
in well-formed plugin configurations. -/
def hvalString : HValue → String
  | .leaf s => s
  | _ => ""

/-- One step of the $env / $file resolution loop of Datasette.plugin_config
(app.py lines 343-350): when the value is a dict whose key list is exactly
["$env"] the environment variable is substituted (a missing variable reads
as None), when it is exactly ["$file"] the file contents are substituted;
otherwise nothing is written. -/
def resolveEntry (env : String → Option String) (fileRead : String → String)
    (h : Heap) (v : HValue) : Option HValue :=
  match v with
  | .ref a =>
    let d := dictAt h a
    if d.map Prod.fst = ["$env"] then
      match env (hvalString (firstValue d)) with
      | some s => some (.leaf s)
      | none => some .null
    else if d.map Prod.fst = ["$file"] then
      some (.leaf (fileRead (hvalString (firstValue d))))
    else none
  | _ => none

/-- The for-loop of Datasette.plugin_config over
plugin_config_copy.items(): each resolved entry is assigned back into the
copy at address copyAddr. -/
def resolveLoop (env : String → Option String) (fileRead : String → String)
    (h : Heap) (copyAddr : Nat) (entries : List (String × HValue)) : Heap :=
  entries.foldl (fun hh kv =>
    match resolveEntry env fileRead hh kv.2 with
    | some nv => heapWrite hh copyAddr kv.1 nv
    | none => hh) h

/-- Datasette.plugin_config (app.py lines 331-352): look up the "plugins"
metadata value, take the entry for the plugin, and when it is a dict,
resolve $env and $file references on a fresh copy
(plugin_config_copy = dict(plugin_config)) so the stored tree is not
mutated.  A Python None result is returned as HValue.null. -/
def plugin_config (env : String → Option String) (fileRead : String → String)
    (h : Heap) (root : Nat) (plugin_name : String)
    (database table : Option String) (fallback : Bool) :
    Except String (Heap × HValue) :=
  match metadata h root (some "plugins") database table fallback with
  | .error e => .error e
  | .ok (.merged _) => .error "unreachable: metadata was called with a key"
  | .ok (.value vOpt) =>
    match vOpt with
    | none => .ok (h, .null)
    | some .null => .ok (h, .null)
    | some (.leaf _) => .error typeErrMsg
    | some (.ref pa) =>
      match pyDictGet (dictAt h pa) plugin_name with
      | some (.ref ca) =>
        let copied := dictAt h ca
        match heapAlloc h copied with
        | (h1, na) => .ok (resolveLoop env fileRead h1 na copied, HValue.ref na)
      | some v => .ok (h, v)
      | none => .ok (h, .null)

/-- pathlib.PurePath name: the component after the last slash. -/
def basenameChars (cs : List Char) : List Char :=
  (cs.reverse.takeWhile (fun c => c ≠ '/')).reverse

/-- pathlib.PurePath stem on a file name: the name up to its last dot,
except when the dot is the first or last character. -/
def stemChars (nm : List Char) : List Char :=
  match nm.reverse.findIdx? (fun c => c = '.') with
  | none => nm
  | some j =>
    let i := nm.length - 1 - j
    if 0 < i ∧ i < nm.length - 1 then nm.take i else nm

/-- Modelled from the spec: the Database class (datasette/database.py) is
not under src/; the spec states that name is "derived from file stem",
i.e. pathlib Path(file).stem. -/
def fileStem (file : String) : String :=
  String.mk (stemChars (basenameChars file.toList))

/-- Datasette.add_database (app.py lines 285-286):
self.databases[name] = db, a plain dict assignment. -/
def add_database {α : Type} (databases : List (String × α)) (name : String) (db : α) :
    List (String × α) :=
  pyDictSet databases name db

/-- Datasette.remove_database (app.py lines 288-289):
self.databases.pop(name), raising KeyError when the name is absent. -/
def remove_database {α : Type} (databases : List (String × α)) (name : String) :
    Except String (α × List (String × α)) :=
  pyDictPop databases name

/-- The registration loop of Datasette.__init__ (app.py lines 193-204):
each file becomes a database named after its stem; a name already present
in the registry raises Exception("Multiple files with same stem: ..."),
otherwise add_database registers it.  A database is represented by its
file. -/
def initLoop (databases : List (String × String)) : List String → Except String (List (String × String))
  | [] => .ok databases
  | file :: rest =>
    let name := fileStem file
    if pyDictGet databases name ≠ none then
      .error ("Multiple files with same stem: " ++ name)
    else initLoop (add_database databases name file) rest

/-- Building self.databases from the configured file list. -/
def init_databases (files : List String) : Except String (List (String × String)) :=
  initLoop [] files

/-- Modelled from the spec: the row handling of Database.execute
(datasette/database.py, not under src/), to which Datasette.execute
(app.py lines 405-422) delegates: with truncate set "the statement executor
must have requested one extra row beyond the configured maximum; if that
extra row is present, drop it and mark truncated = true", and "truncation
compares rowsReturned > max strictly".  allRows is the full sequence of
rows the statement would produce. -/
def database_execute_rows {α : Type} (allRows : List α) (truncate : Bool)
    (max_returned_rows : Nat) : List α × Bool :=
  if truncate then
    let fetched := allRows.take (max_returned_rows + 1)
    let truncated := decide (max_returned_rows < fetched.length)
    (fetched.take max_returned_rows, truncated)
  else (allRows, false)

/-- Datasette.execute (app.py lines 405-422): resolve the database name in
the registry (an unknown name raises KeyError) and delegate to
Database.execute. -/
def datasette_execute {α : Type} (databases : List (String × List α)) (db_name : String)
    (truncate : Bool) (max_returned_rows : Nat) : Except String (List α × Bool) :=
  match pyDictGet databases db_name with
  | none => .error "KeyError"
  | some rows => .ok (database_execute_rows rows truncate max_returned_rows)

/-- A template oracle under which every template exists. -/
def alwaysTemplates : String → Bool := fun _ => true

/-- A pages/ oracle under which no page template exists. -/
def noPages : List Char → Bool := fun _ => false

/-- Concrete metadata tree for exercising the cascading lookup: a global
value, a database-level value and a table-level value for the key "k". -/
def exHeap6 : Heap :=
  { dicts :=
      [ [("databases", .ref 1), ("k", .leaf "global")],
        [("db1", .ref 2)],
        [("k", .leaf "dblevel"), ("tables", .ref 3)],
        [("t1", .ref 4)],
        [("k", .leaf "tablelevel")] ] }

/-- Minimal metadata tree for exercising the assertion in metadata. -/
def exHeap8 : Heap :=
  { dicts := [ [("k", .leaf "v")] ] }

/-- Concrete metadata tree with a plugin configuration holding a $env
reference. -/
def exHeap10 : Heap :=
  { dicts :=
      [ [("plugins", .ref 1)],
        [("myplugin", .ref 2)],
        [("key1", .ref 3), ("key2", .leaf "plain")],
        [("$env", .leaf "MYVAR")] ] }

/-- The heap after plugin_config resolved exHeap10: the original four
dictionaries are untouched and the resolved copy sits at the fresh
address 4. -/
def exHeap10after : Heap :=
  { dicts :=
      [ [("plugins", .ref 1)],
        [("myplugin", .ref 2)],
        [("key1", .ref 3), ("key2", .leaf "plain")],
        [("$env", .leaf "MYVAR")],
        [("key1", .leaf "resolved"), ("key2", .leaf "plain")] ] }

/-- Concrete environment for the plugin_config example. -/
def exEnv : String → Option String :=
  fun s => if s = "MYVAR" then some "resolved" else none

/-- Concrete file reader for the plugin_config example. -/
def exFileRead : String → String := fun _ => ""

theorem pyStartsWith_append (l s : List Char) : pyStartsWith (l ++ s) l = true := by
  induction l with
  | nil => cases s <;> rfl
  | cons c cs ih => simp [pyStartsWith, ih]

theorem find_status_templates (texists : String → Bool) (status : Nat) :
    List.find? texists (status_templates status)
      = List.find? texists [toString status ++ ".html", "500.html"] := by
  by_cases h : status = 500
  · subst h
    have h5 : toString (500 : Nat) ++ ".html" = "500.html" := by decide
    rw [h5]
    simp only [status_templates, ne_eq, not_true_eq_false, if_false]
    cases h2 : texists "500.html" <;> simp [List.find?, h2]
  · simp [status_templates, h]

/-- C1 (counterexample): for the not-found failure, the machine-readable
payload built by handle_500 is not exactly the two-field dictionary
claimed: the source also inserts "status" and "title" (app.py line 868). -/
theorem handle_500_notfound_payload_cex :
    (handle_500 (Ex.notFound "404") ("/nope".toList) false alwaysTemplates).info
      = [("ok", PValue.bool false), ("error", PValue.str "404"),
         ("status", PValue.int 404), ("title", PValue.null)]
    ∧ (handle_500 (Ex.notFound "404") ("/nope".toList) false alwaysTemplates).info.map Prod.fst
        ≠ ["ok", "error"] := by decide

/-- C1 (amended): every not-found failure reaching handle_500 is translated
to status 404, and its machine-readable payload is exactly
ok:false, error:message, status:404, title:null, in that order. -/
theorem handle_500_notfound (message : String) (path : List Char) (cors : Bool)
    (texists : String → Bool) :
    (handle_500 (.notFound message) path cors texists).status = 404
    ∧ (handle_500 (.notFound message) path cors texists).info
      = [("ok", .bool false), ("error", .str message),
         ("status", .int 404), ("title", .null)] := by
  unfold handle_500
  cases h : pyEndsWith (pySplitFirst path '?') (".json".toList) <;>
    simp [h, pyDictUpdate, pyDictSet, optTitle]

/-- C2 (counterexample): the not-found redirect uses rstrip, which removes
every trailing slash: requesting /a// redirects to /a, not to /a/ as the
claim (remove the single trailing slash) would require. -/
theorem handle_404_trailing_cex :
    handle_404 ("/a//".toList) [] noPages false alwaysTemplates none
      = .redirected { status := 302, headers := [("Location", "/a".toList)], body := [] }
    ∧ "/a".toList ≠ "/a/".toList := by decide

/-- C2 (amended): every request path ending in a trailing separator that
matches no route binding is redirected (302, empty body) to the same path
with all trailing slashes removed, the original query string appended
byte-for-byte after a question mark when it is non-empty. -/
theorem handle_404_trailing (rawPath queryString : List Char)
    (pageExists : List Char → Bool) (cors : Bool) (texists : String → Bool)
    (exceptionArg : Option Ex) (h : pyEndsWith rawPath ['/'] = true) :
    handle_404 rawPath queryString pageExists cors texists exceptionArg
      = .redirected { status := 302,
                      headers := [("Location",
                        pyRstrip rawPath '/'
                          ++ (if queryString ≠ [] then '?' :: queryString else []))],
                      body := [] } := by
  cases hq : queryString <;> simp [handle_404, h, hq, asgi_send_redirect]

theorem handle_404_trailing_witness :
    handle_404 ("/nonexistent/path/".toList) [] noPages false alwaysTemplates none
      = .redirected { status := 302,
                      headers := [("Location", "/nonexistent/path".toList)],
                      body := [] } := by
  rw [handle_404_trailing ("/nonexistent/path/".toList) [] noPages false alwaysTemplates none
    (by decide)]
  decide

/-- C3 (counterexample): with base prefix /base configured, dispatching
/base/x does not behave like dispatching /x at the root prefix: the source
re-roots the remainder after the prefix, so the stripped path is //x. -/
theorem route_path_base_url_cex :
    route_path_stripped ("/base".toList) ("/base/x".toList) = "//x".toList
    ∧ route_path_stripped ("/".toList) ("/x".toList) = "/x".toList
    ∧ "//x".toList ≠ "/x".toList := by decide

/-- C3 (amended): with a non-trivial base prefix configured, dispatching
base ++ s hands the shared routing logic the same path as dispatching
"/" ++ s under the root prefix (the prefix is replaced by "/", so
base + "/x" dispatches as "//x", not "/x"); with the root prefix, or when
the incoming path does not start with the prefix, the path is passed
through unchanged. -/
theorem route_path_base_url_spec :
    (∀ base s : List Char, base ≠ ['/'] →
      route_path_stripped base (base ++ s) = route_path_stripped ['/'] ('/' :: s))
    ∧ (∀ p : List Char, route_path_stripped ['/'] p = p)
    ∧ (∀ base p : List Char, pyStartsWith p base = false → route_path_stripped base p = p) := by
  refine ⟨?_, ?_, ?_⟩
  · intro base s hb
    simp [route_path_stripped, hb, pyStartsWith_append, List.drop_left]
  · intro p
    simp [route_path_stripped]
  · intro base p hp
    simp [route_path_stripped, hp]

theorem route_path_base_url_spec_witness :
    route_path_stripped ("/base".toList) ("/base".toList ++ "/x".toList)
        = route_path_stripped ['/'] ('/' :: "/x".toList)
    ∧ route_path_stripped ("/base".toList) ("/x".toList) = "/x".toList :=
  ⟨route_path_base_url_spec.1 ("/base".toList) ("/x".toList) (by decide),
   route_path_base_url_spec.2.2 ("/base".toList) ("/x".toList) (by decide)⟩

/-- C4: the error response body is the structured JSON payload exactly when
the request path, with any query string removed, ends in the .json suffix;
otherwise an HTML page is rendered from the first existing template among
the status-specific template and the generic 500.html fallback, in that
order, with the payload as template context.  In the JSON case the body is
exactly the payload. -/
theorem handle_500_shape (ex : Ex) (path : List Char) (cors : Bool)
    (texists : String → Bool) :
    ((handle_500 ex path cors texists).body.isJson = true
      ↔ pyEndsWith (pySplitFirst path '?') (".json".toList) = true)
    ∧ ((handle_500 ex path cors texists).body.isJson = false →
        (handle_500 ex path cors texists).body
          = ErrorBody.htmlPage
              (List.find? texists
                [toString (handle_500 ex path cors texists).status ++ ".html", "500.html"])
              (handle_500 ex path cors texists).info)
    ∧ ((handle_500 ex path cors texists).body.isJson = true →
        (handle_500 ex path cors texists).body
          = ErrorBody.jsonPayload (handle_500 ex path cors texists).info) := by
  cases hj : pyEndsWith (pySplitFirst path '?') (".json".toList) <;>
    cases ex <;>
      simp only [handle_500, hj, if_true, if_false, Bool.false_eq_true, if_neg, ite_false,
        ite_true, reduceIte] <;>
        simp [ErrorBody.isJson, find_status_templates, hj]

theorem handle_500_shape_witness :
    (handle_500 (Ex.notFound "nf") ("/x".toList) false alwaysTemplates).body
      = ErrorBody.htmlPage (some "404.html")
          [("ok", .bool false), ("error", .str "nf"), ("status", .int 404), ("title", .null)]
    ∧ (handle_500 (Ex.notFound "nf") ("/x.json".toList) false alwaysTemplates).body
      = ErrorBody.jsonPayload
          [("ok", .bool false), ("error", .str "nf"), ("status", .int 404), ("title", .null)] := by
  constructor
  · have h := (handle_500_shape (Ex.notFound "nf") ("/x".toList) false alwaysTemplates).2.1
      (by decide)
    rw [h]; decide
  · have h := (handle_500_shape (Ex.notFound "nf") ("/x.json".toList) false alwaysTemplates).2.2
      (by decide)
    rw [h]; decide

/-- C5: with truncate set and a configured maximum of n rows, a statement
producing exactly n+1 rows yields exactly n rows with truncated true, and a
statement producing exactly n rows yields all n rows with truncated false
(the comparison rowsReturned > max is strict). -/
theorem execute_truncation {α : Type} (rows : List α) (n : Nat) :
    (rows.length = n + 1 →
      database_execute_rows rows true n = (rows.take n, true)
        ∧ (rows.take n).length = n)
    ∧ (rows.length = n → database_execute_rows rows true n = (rows, false)) := by
  constructor
  · intro h
    unfold database_execute_rows
    have htake : rows.take (n + 1) = rows := List.take_of_length_le (by omega)
    constructor
    · simp [htake, h]
    · simp [h]
  · intro h
    unfold database_execute_rows
    have htake : rows.take (n + 1) = rows := List.take_of_length_le (by omega)
    have htake2 : rows.take n = rows := List.take_of_length_le (by omega)
    simp [htake, htake2, h]

theorem execute_truncation_witness :
    (database_execute_rows [0, 1, 2] true 2 = ([0, 1, 2].take 2, true)
      ∧ ([0, 1, 2].take 2).length = 2)
    ∧ database_execute_rows [0, 1, 2] true 3 = ([0, 1, 2], false) :=
  ⟨(execute_truncation [0, 1, 2] 2).1 (by decide),
   (execute_truncation [0, 1, 2] 3).2 (by decide)⟩

/-- C6: with fallback, a metadata key lookup returns the value from the
most specific level defining the key, searching table level, then database
level, then the global metadata; without fallback only the single most
specific level is consulted. -/
theorem metadata_cascade (h : Heap) (root : Nat) (k d t : String)
    (dbs dl tbls tl : List (String × HValue))
    (h1 : contentsOr h (pyDictGet (dictAt h root) "databases") = .ok dbs)
    (h2 : contentsOr h (pyDictGet dbs d) = .ok dl)
    (h3 : contentsOr h (pyDictGet dl "tables") = .ok tbls)
    (h4 : contentsOr h (pyDictGet tbls t) = .ok tl) :
    metadata h root (some k) (some d) (some t) true
        = .ok (.value (searchFirst [tl, dl, dictAt h root] k))
    ∧ metadata h root (some k) (some d) (some t) false
        = .ok (.value (searchFirst [tl] k))
    ∧ metadata h root (some k) (some d) none true
        = .ok (.value (searchFirst [dl, dictAt h root] k))
    ∧ metadata h root (some k) (some d) none false
        = .ok (.value (searchFirst [dl] k))
    ∧ metadata h root (some k) none none true
        = .ok (.value (searchFirst [dictAt h root] k))
    ∧ metadata h root (some k) none none false
        = .ok (.value (searchFirst [dictAt h root] k)) := by
  refine ⟨?_, ?_, ?_, ?_, ?_, ?_⟩ <;>
    simp [metadata, dbLevelList, tblLevelList, h1, h2, h3, h4, Option.getD]

theorem metadata_cascade_witness :
    metadata exHeap6 0 (some "k") (some "db1") (some "t1") true
        = .ok (.value (some (.leaf "tablelevel")))
    ∧ metadata exHeap6 0 (some "k") (some "db1") (some "t1") false
        = .ok (.value (some (.leaf "tablelevel")))
    ∧ metadata exHeap6 0 (some "k") (some "db1") none true
        = .ok (.value (some (.leaf "dblevel"))) := by
  have hc := metadata_cascade exHeap6 0 "k" "db1" "t1"
    (dictAt exHeap6 1) (dictAt exHeap6 2) (dictAt exHeap6 3) (dictAt exHeap6 4)
    (by decide) (by decide) (by decide) (by decide)
  refine ⟨?_, ?_, ?_⟩
  · rw [hc.1]; decide
  · rw [hc.2.1]; decide
  · rw [hc.2.2.1]; decide

theorem contentsOr_ne_assert (h : Heap) (v : Option HValue) (e : String)
    (he : contentsOr h v = .error e) : e ≠ assertMsg := by
  cases v with
  | none => simp [contentsOr] at he
  | some hv =>
    cases hv with
    | null => simp [contentsOr] at he
    | ref a => simp [contentsOr] at he
    | leaf s =>
      simp only [contentsOr] at he
      by_cases hs : s = ""
      · rw [if_pos hs] at he; cases he
      · rw [if_neg hs] at he
        injection he with he
        rw [← he]
        decide

theorem dbLevelList_ne_assert (h : Heap) (databases : List (String × HValue))
    (database : Option String) (e : String)
    (he : dbLevelList h databases database = .error e) : e ≠ assertMsg := by
  cases database with
  | none => simp [dbLevelList] at he
  | some d =>
    simp only [dbLevelList] at he
    revert he
    split
    · next e2 he2 =>
      intro he
      injection he with he
      rw [← he]
      exact contentsOr_ne_assert _ _ _ he2
    · intro he
      cases he

theorem tblLevelList_ne_assert (h : Heap) (databases : List (String × HValue))
    (database table : Option String) (e : String)
    (he : tblLevelList h databases database table = .error e) : e ≠ assertMsg := by
  cases table with
  | none => simp [tblLevelList] at he
  | some t =>
    simp only [tblLevelList] at he
    revert he
    split
    · next e2 he2 =>
      intro he
      injection he with he
      rw [← he]
      exact contentsOr_ne_assert _ _ _ he2
    · next dl2 hdl2 =>
      split
      · next e2 he2 =>
        intro he
        injection he with he
        rw [← he]
        exact contentsOr_ne_assert _ _ _ he2
      · next tbls htbls =>
        split
        · next e2 he2 =>
          intro he
          injection he with he
          rw [← he]
          exact contentsOr_ne_assert _ _ _ he2
        · intro he
          cases he

/-- C8: calling the metadata lookup with a table but no database always
fails the assertion, for every key, table and fallback flag; and whenever
the precondition (a table is only given together with a database) holds,
the assertion branch is unreachable. -/
theorem metadata_assert :
    (∀ (h : Heap) (root : Nat) (k : Option String) (t : String) (fb : Bool),
      metadata h root k none (some t) fb = .error assertMsg)
    ∧ (∀ (h : Heap) (root : Nat) (k : Option String) (db tbl : Option String) (fb : Bool),
      (db = none → tbl = none) →
      metadata h root k db tbl fb ≠ .error assertMsg) := by
  constructor
  · intro h root k t fb
    simp [metadata]
  · intro h root k db tbl fb hpre hh
    have hcond : ¬ (db = none ∧ tbl ≠ none) := by
      rintro ⟨hd, ht⟩
      exact ht (hpre hd)
    simp only [metadata] at hh
    rw [if_neg hcond] at hh
    repeat' split at hh
    all_goals try cases hh
    all_goals rename_i heqx
    all_goals first
      | exact absurd rfl (contentsOr_ne_assert _ _ _ heqx)
      | exact absurd rfl (dbLevelList_ne_assert _ _ _ _ heqx)
      | exact absurd rfl (tblLevelList_ne_assert _ _ _ _ _ heqx)

theorem metadata_assert_witness :
    metadata exHeap8 0 (some "k") none (some "t") true = .error assertMsg
    ∧ metadata exHeap8 0 (some "k") none none true ≠ .error assertMsg :=
  ⟨metadata_assert.1 exHeap8 0 (some "k") "t" true,
   metadata_assert.2 exHeap8 0 (some "k") none none true (fun _ => rfl)⟩

theorem pyDictGet_append {α : Type} (d1 d2 : List (String × α)) (k : String) :
    pyDictGet (d1 ++ d2) k
      = match pyDictGet d1 k with
        | some v => some v
        | none => pyDictGet d2 k := by
  induction d1 with
  | nil => rfl
  | cons p rest ih =>
    by_cases hk : p.1 = k
    · simp [pyDictGet, hk]
    · simp [pyDictGet, hk, ih]

theorem pyDictSet_absent {α : Type} (d : List (String × α)) (k : String) (v : α)
    (h : pyDictGet d k = none) : pyDictSet d k v = d ++ [(k, v)] := by
  induction d with
  | nil => rfl
  | cons p rest ih =>
    simp only [pyDictGet] at h
    by_cases hk : p.1 = k
    · rw [if_pos hk] at h; cases h
    · rw [if_neg hk] at h
      simp [pyDictSet, hk, ih h]

theorem initLoop_ok (files : List String) (acc : List (String × String))
    (hnd : (files.map fileStem).Nodup)
    (hdisj : ∀ f ∈ files, pyDictGet acc (fileStem f) = none) :
    initLoop acc files = .ok (acc ++ files.map (fun f => (fileStem f, f))) := by
  induction files generalizing acc with
  | nil => simp [initLoop]
  | cons f rest ih =>
    have hf : pyDictGet acc (fileStem f) = none := hdisj f (by simp)
    rw [List.map_cons, List.nodup_cons] at hnd
    simp only [initLoop]
    rw [if_neg (by simp [hf])]
    rw [add_database, pyDictSet_absent _ _ _ hf]
    rw [ih (acc ++ [(fileStem f, f)]) hnd.2]
    · simp
    · intro g hg
      rw [pyDictGet_append]
      rw [hdisj g (by simp [hg])]
      have hne : fileStem g ≠ fileStem f := by
        intro hcontra
        exact hnd.1 (by rw [← hcontra]; exact List.mem_map_of_mem _ hg)
      simp [pyDictGet, hne.symm]

theorem initLoop_error (files : List String) (acc : List (String × String))
    (hbad : (∃ f ∈ files, pyDictGet acc (fileStem f) ≠ none)
      ∨ ¬ (files.map fileStem).Nodup) :
    ∃ e, initLoop acc files = .error e := by
  induction files generalizing acc with
  | nil =>
    rcases hbad with ⟨f, hf, _⟩ | hnd
    · cases hf
    · simp at hnd
  | cons f rest ih =>
    by_cases hf : pyDictGet acc (fileStem f) = none
    · simp only [initLoop]
      rw [if_neg (by simp [hf])]
      apply ih
      rcases hbad with ⟨g, hg, hgn⟩ | hnd
      · rcases List.mem_cons.mp hg with hq | hgr
        · exact absurd (hq ▸ hf) hgn
        · left
          refine ⟨g, hgr, ?_⟩
          rw [add_database, pyDictSet_absent _ _ _ hf, pyDictGet_append]
          cases hacc : pyDictGet acc (fileStem g) with
          | some v => simp
          | none => exact absurd hacc hgn
      · rw [List.map_cons, List.nodup_cons] at hnd
        push_neg at hnd
        by_cases hmem : fileStem f ∈ rest.map fileStem
        · left
          rcases List.mem_map.mp hmem with ⟨g, hgr, hgs⟩
          refine ⟨g, hgr, ?_⟩
          rw [add_database, pyDictSet_absent _ _ _ hf, pyDictGet_append, hgs]
          rw [hf]
          simp [pyDictGet]
        · right
          exact hnd hmem
    · refine ⟨"Multiple files with same stem: " ++ fileStem f, ?_⟩
      simp [initLoop, hf]

/-- C7: building the registry from a list of database files raises the
fatal configuration error exactly when two files derive the same name
(stem); when all names are distinct every file is registered and the
registry lists them in the given order. -/
theorem init_databases_spec (files : List String) :
    ((files.map fileStem).Nodup →
      init_databases files = .ok (files.map (fun f => (fileStem f, f))))
    ∧ (¬ (files.map fileStem).Nodup → ∃ e, init_databases files = .error e) := by
  constructor
  · intro hnd
    have h := initLoop_ok files [] hnd (fun f _ => rfl)
    simpa [init_databases] using h
  · intro hnd
    exact initLoop_error files [] (Or.inr hnd)

theorem init_databases_spec_witness :
    init_databases ["a.db", "b.db"] = .ok [("a", "a.db"), ("b", "b.db")]
    ∧ ∃ e, init_databases ["x/a.db", "y/a.db"] = .error e := by
  constructor
  · have h := (init_databases_spec ["a.db", "b.db"]).1 (by decide)
    rw [h]; decide
  · exact (init_databases_spec ["x/a.db", "y/a.db"]).2 (by decide)

theorem pyDictGet_set_self {α : Type} (d : List (String × α)) (k : String) (v : α) :
    pyDictGet (pyDictSet d k v) k = some v := by
  induction d with
  | nil => simp [pyDictSet, pyDictGet]
  | cons p rest ih =>
    by_cases hk : p.1 = k
    · simp [pyDictSet, hk, pyDictGet]
    · simp [pyDictSet, hk, pyDictGet, ih]

theorem pyDictGet_set_ne {α : Type} (d : List (String × α)) (n k : String) (v : α)
    (h : k ≠ n) : pyDictGet (pyDictSet d n v) k = pyDictGet d k := by
  induction d with
  | nil => simp [pyDictSet, pyDictGet, Ne.symm h]
  | cons p rest ih =>
    by_cases hn : p.1 = n
    · simp [pyDictSet, hn, pyDictGet, Ne.symm h]
    · by_cases hkp : p.1 = k
      · simp [pyDictSet, hn, pyDictGet, hkp, h]
      · simp [pyDictSet, hn, pyDictGet, hkp, ih]

theorem pyDictSet_keys {α : Type} (d : List (String × α)) (k : String) (v : α) :
    (pyDictSet d k v).map Prod.fst
      = if (pyDictGet d k).isSome then d.map Prod.fst else d.map Prod.fst ++ [k] := by
  induction d with
  | nil => simp [pyDictSet, pyDictGet]
  | cons p rest ih =>
    by_cases hk : p.1 = k
    · simp [pyDictSet, hk, pyDictGet]
    · simp [pyDictSet, hk, pyDictGet, ih]
      split <;> simp

theorem pyDictPop_error_iff {α : Type} (d : List (String × α)) (k : String) :
    (∃ e, pyDictPop d k = .error e) ↔ pyDictGet d k = none := by
  induction d with
  | nil => simp [pyDictPop, pyDictGet]
  | cons p rest ih =>
    by_cases hk : p.1 = k
    · simp [pyDictPop, hk, pyDictGet]
    · simp only [pyDictPop, hk, if_false, pyDictGet]
      rw [← ih]
      constructor
      · rintro ⟨e, he⟩
        cases hp : pyDictPop rest k with
        | error e2 => exact ⟨e2, rfl⟩
        | ok q => rw [hp] at he; simp [Except.map] at he
      · rintro ⟨e, he⟩
        exact ⟨e, by simp [he, Except.map]⟩

/-- C9: add_database is a total dict assignment: the new value is bound to
the name, a previous binding of the same name is silently replaced in
place (same key order), every other binding is unchanged; remove_database
raises KeyError exactly when the name is not registered. -/
theorem add_remove_database_spec :
    (∀ (α : Type) (d : List (String × α)) (n : String) (v : α),
      pyDictGet (add_database d n v) n = some v)
    ∧ (∀ (α : Type) (d : List (String × α)) (n k : String) (v : α), k ≠ n →
      pyDictGet (add_database d n v) k = pyDictGet d k)
    ∧ (∀ (α : Type) (d : List (String × α)) (n : String) (v : α),
      (add_database d n v).map Prod.fst
        = if (pyDictGet d n).isSome then d.map Prod.fst else d.map Prod.fst ++ [n])
    ∧ (∀ (α : Type) (d : List (String × α)) (n : String),
      (∃ e, remove_database d n = .error e) ↔ pyDictGet d n = none) :=
  ⟨fun _ d n v => pyDictGet_set_self d n v,
   fun _ d n k v h => pyDictGet_set_ne d n k v h,
   fun _ d n v => pyDictSet_keys d n v,
   fun _ d n => pyDictPop_error_iff d n⟩

theorem add_remove_database_spec_witness :
    pyDictGet (add_database [("a", 1), ("b", 2)] "a" 9) "b"
      = pyDictGet [("a", 1), ("b", 2)] "b" :=
  add_remove_database_spec.2.1 Nat [("a", 1), ("b", 2)] "a" "b" 9 (by decide)

theorem heapWrite_frame (h : Heap) (a b : Nat) (k : String) (v : HValue)
    (hne : b ≠ a) : (heapWrite h a k v).dicts[b]? = h.dicts[b]? := by
  simp only [heapWrite]
  exact List.getElem?_set_ne (Ne.symm hne)

theorem resolveLoop_frame (env : String → Option String) (fileRead : String → String)
    (entries : List (String × HValue)) (na b : Nat) (hne : b ≠ na) :
    ∀ h : Heap, (resolveLoop env fileRead h na entries).dicts[b]? = h.dicts[b]? := by
  induction entries with
  | nil => intro h; rfl
  | cons kv rest ih =>
    intro h
    simp only [resolveLoop, List.foldl_cons]
    cases hr : resolveEntry env fileRead h kv.2 with
    | none =>
      have := ih h
      simpa [resolveLoop, hr] using this
    | some nv =>
      have := ih (heapWrite h na kv.1 nv)
      simp only [resolveLoop] at this
      simp only [hr]
      rw [this, heapWrite_frame _ _ _ _ _ hne]

/-- C10: plugin_config never mutates the stored metadata tree: whatever it
returns, every dictionary that existed in the heap before the call is
unchanged after it ($env and $file resolution writes only to the freshly
allocated copy). -/
theorem plugin_config_frame (env : String → Option String) (fileRead : String → String)
    (h : Heap) (root : Nat) (pn : String) (db tbl : Option String) (fb : Bool)
    (h2 : Heap) (res : HValue)
    (hok : plugin_config env fileRead h root pn db tbl fb = .ok (h2, res)) :
    ∀ a : Nat, a < h.dicts.length → h2.dicts[a]? = h.dicts[a]? := by
  intro a ha
  unfold plugin_config at hok
  repeat' split at hok
  all_goals try cases hok
  all_goals try rfl
  all_goals
    rw [resolveLoop_frame env fileRead _ _ _ (show a ≠ h.dicts.length by omega)]
    exact List.getElem?_append_left ha

theorem plugin_config_frame_witness :
    plugin_config exEnv exFileRead exHeap10 0 "myplugin" none none true
      = .ok (exHeap10after, .ref 4)
    ∧ exHeap10after.dicts[0]? = exHeap10.dicts[0]? := by
  constructor
  · decide
  · exact plugin_config_frame exEnv exFileRead exHeap10 0 "myplugin" none none true
      exHeap10after (.ref 4) (by decide) 0 (by decide)
